import Mathlib

set_option autoImplicit false

namespace FastapiAgent

/-!
Verification of the agent workflow engine of the FastAPI agent template.

The definitions below are a shallow embedding of
`backend/app/agents/graph.py` and `backend/app/agents/tools.py`.
Pure functions of the source are translated directly; the language model,
the database and the HTTP client are abstracted as explicit oracle
parameters, and the parts of the execution engine that live in the
langgraph library (the Pregel loop, the `add_messages` reducer, the
checkpoint iterator) are modelled from the specification, as marked on
each such definition.
-/

/-! ### Messages and tool calls

Translated from the langchain message classes as used by
`backend/app/agents/graph.py`: `HumanMessage`, `SystemMessage`, the model
response (`AIMessage`, the only message class carrying a `tool_calls`
attribute) and `ToolMessage` produced by the tool node.
-/

structure ToolCall where
  name : String
  args : String
  id : String
deriving DecidableEq

inductive BaseMessage where
  | human (content : String)
  | system (content : String)
  | ai (content : String) (tool_calls : List ToolCall)
  | tool (content : String) (tool_call_id : String)
deriving DecidableEq

def BaseMessage.content : BaseMessage → String
  | .human c => c
  | .system c => c
  | .ai c _ => c
  | .tool c _ => c

/-- The `tool_calls` attribute: only `AIMessage` has it; for every other
message class `hasattr(msg, "tool_calls")` is false, modelled as `[]`. -/
def BaseMessage.toolCalls : BaseMessage → List ToolCall
  | .ai _ tcs => tcs
  | _ => []

/-- The Python truthiness test `hasattr(m, "tool_calls") and m.tool_calls`
from `route_after_executor`. -/
def hasToolCalls (m : BaseMessage) : Bool :=
  !m.toolCalls.isEmpty

/-! ### Conversation state

`AgentState` from `backend/app/agents/graph.py` lines 32-43: `messages`
(merged with the `add_messages` reducer), `plan` and `user_id`.
-/

structure AgentState where
  messages : List BaseMessage
  plan : Option String
  user_id : Option String
deriving DecidableEq

/-! ### Routing functions (`graph.py` lines 160-191) -/

/-- `should_continue`: always routes from the planner to the executor. -/
def should_continue (_state : AgentState) : String :=
  "executor"

/-- `route_after_executor` from `graph.py` lines 174-191: inspects
`messages[-1]`; returns `"tool_executor"` when the last message carries
tool calls, `"end"` otherwise.  `none` models the `IndexError` that
Python raises when `messages` is empty. -/
def route_after_executor (state : AgentState) : Option String :=
  match state.messages.getLast? with
  | none => none
  | some last_message =>
      if hasToolCalls last_message then some "tool_executor" else some "end"

/-! ### Capability registry (`backend/app/agents/tools.py`)

The database is abstracted as an explicit value: a `Session` carries the
user and item tables together with a `dbError` flag modelling the case in
which the underlying engine raises on query execution.
-/

structure UserRow where
  id : String
  email : String
  full_name : Option String
  is_active : Bool
  is_superuser : Bool
deriving DecidableEq

structure ItemRow where
  id : String
  title : String
  description : Option String
  owner_id : String
deriving DecidableEq

structure Session where
  users : List UserRow
  items : List ItemRow
  dbError : Option String
deriving DecidableEq

/-- Registry view of a `StructuredTool`: its unique name and description
(the invocation functions are modelled separately below). -/
structure Tool where
  name : String
  description : String
deriving DecidableEq

/-- `create_database_tools` (`tools.py` lines 57-176): the three
database lookup tools, built only when a session is available. -/
def create_database_tools (_session : Session) : List Tool :=
  [⟨"lookup_user_by_email",
    "Look up a user by their email address. Returns user details including ID, name, and status."⟩,
   ⟨"lookup_item_by_id",
    "Look up an item by its UUID. Returns item details including title, description, and owner."⟩,
   ⟨"lookup_user_items",
    "Look up all items owned by a specific user. Returns a list of items with pagination."⟩]

def http_get_tool : Tool :=
  ⟨"http_get", "Make an HTTP GET request to a URL."⟩

def http_post_tool : Tool :=
  ⟨"http_post", "Make an HTTP POST request to a URL with JSON data."⟩

/-- `get_all_tools` (`tools.py` lines 340-361): database tools only when
a session is provided, HTTP tools always. -/
def get_all_tools (session : Option Session) : List Tool :=
  (match session with
   | some s => create_database_tools s
   | none => []) ++ [http_get_tool, http_post_tool]

/-- `get_tool_by_name` (`tools.py` lines 364-380). -/
def get_tool_by_name (name : String) (session : Option Session) : Option Tool :=
  (get_all_tools session).find? (fun available_tool => available_tool.name == name)

/-- C4: a state whose last message carries one or more tool calls routes to
"tool_executor"; a state whose last message carries none routes to "end",
so a response with zero tool calls goes directly to END. -/
theorem C4_route_after_executor (s : AgentState) (m : BaseMessage)
    (h : s.messages.getLast? = some m) :
    (m.toolCalls ≠ [] → route_after_executor s = some "tool_executor") ∧
    (m.toolCalls = [] → route_after_executor s = some "end") := by
  constructor
  · intro hne
    simp [route_after_executor, h, hasToolCalls, List.isEmpty_iff, hne]
  · intro he
    simp [route_after_executor, h, hasToolCalls, List.isEmpty_iff, he]

theorem C4_route_after_executor_witness :
    (route_after_executor ⟨[.human "hi", .ai "calling" [⟨"http_get", "args", "c1"⟩]], none, none⟩
      = some "tool_executor") ∧
    (route_after_executor ⟨[.human "hi", .ai "hello" []], none, none⟩ = some "end") := by
  refine ⟨?_, ?_⟩
  · exact (C4_route_after_executor
      ⟨[.human "hi", .ai "calling" [⟨"http_get", "args", "c1"⟩]], none, none⟩
      (.ai "calling" [⟨"http_get", "args", "c1"⟩]) (by decide)).1 (by decide)
  · exact (C4_route_after_executor
      ⟨[.human "hi", .ai "hello" []], none, none⟩
      (.ai "hello" []) (by decide)).2 (by decide)

/-- C5: with no session, `get_all_tools` returns exactly the two HTTP tools
and no database tool; with a session it returns the three database lookup
tools followed by the two HTTP tools. -/
theorem C5_get_all_tools :
    ((get_all_tools none).map Tool.name = ["http_get", "http_post"]) ∧
    (∀ s : Session, (get_all_tools (some s)).map Tool.name =
      ["lookup_user_by_email", "lookup_item_by_id", "lookup_user_items",
       "http_get", "http_post"]) := by
  constructor
  · rfl
  · intro s
    rfl

/-! ### JSON values and the capability invocation boundary

The capability functions of `tools.py` return `json.dumps(...)` of a
Python dict; the embedding returns the JSON value itself.  The database
engine and the httpx client are abstracted as explicit outcomes so that
every exception path of the source's try/except blocks is a reachable
case of the embedding.
-/

inductive Json where
  | str (s : String)
  | int (n : Int)
  | bool (b : Bool)
  | null
  | arr (xs : List Json)
  | obj (fields : List (String × Json))

def jsonOfOptStr : Option String → Json
  | some s => .str s
  | none => .null

def Json.lookupField : Json → String → Option Json
  | .obj fields, key => (fields.find? (fun f => f.fst == key)).map Prod.snd
  | _, _ => none

/-- The payload is a structured error: it carries a string `"error"` field. -/
def structuredError (j : Json) : Bool :=
  match j.lookupField "error" with
  | some (.str _) => true
  | _ => false

def Json.keys : Json → List String
  | .obj fields => fields.map Prod.fst
  | _ => []

def Json.isObj : Json → Bool
  | .obj _ => true
  | _ => false

/-- Models `session.exec(...)` / `session.get(...)`: when the underlying
engine is failing (`dbError` set), the query raises and the exception text
reaches the `except Exception` handler of the enclosing tool. -/
def Session.run {α : Type} (s : Session) (q : Session → α) : Except String α :=
  match s.dbError with
  | some e => .error e
  | none => .ok (q s)

/-- `lookup_user_by_email` (`tools.py` lines 70-94); `.first()` on the
filtered select is the first matching row, `List.find?`. -/
def lookup_user_by_email (session : Session) (email : String) : Json :=
  match session.run (fun s => s.users.find? (fun u => u.email == email)) with
  | .error e => .obj [("error", .str ("Database error: " ++ e))]
  | .ok none => .obj [("error", .str ("No user found with email: " ++ email))]
  | .ok (some user) =>
      .obj [("id", .str user.id), ("email", .str user.email),
            ("full_name", jsonOfOptStr user.full_name),
            ("is_active", .bool user.is_active),
            ("is_superuser", .bool user.is_superuser)]

/-- `lookup_item_by_id` (`tools.py` lines 96-119). -/
def lookup_item_by_id (session : Session) (item_id : String) : Json :=
  match session.run (fun s => s.items.find? (fun it => it.id == item_id)) with
  | .error e => .obj [("error", .str ("Database error: " ++ e))]
  | .ok none => .obj [("error", .str ("No item found with ID: " ++ item_id))]
  | .ok (some item) =>
      .obj [("id", .str item.id), ("title", .str item.title),
            ("description", jsonOfOptStr item.description),
            ("owner_id", .str item.owner_id)]

/-- `lookup_user_items` (`tools.py` lines 121-149). -/
def lookup_user_items (session : Session) (user_id : String) (limit : Nat) : Json :=
  match session.run
      (fun s => (s.items.filter (fun it => it.owner_id == user_id)).take limit) with
  | .error e => .obj [("error", .str ("Database error: " ++ e))]
  | .ok items =>
      let items_data := items.map (fun item =>
        Json.obj [("id", .str item.id), ("title", .str item.title),
                  ("description", jsonOfOptStr item.description),
                  ("owner_id", .str item.owner_id)])
      .obj [("count", .int items_data.length), ("items", .arr items_data),
            ("limit", .int (Int.ofNat limit))]

/-- Outcome of one httpx request, covering every branch of the source's
try/except: a 2xx response, a `raise_for_status` error, a transport
error, or any other exception. -/
inductive HttpOutcome where
  | success (status_code : Int) (headers : List (String × String)) (body : String) (url : String)
  | statusError (status_code : Int) (text : String)
  | requestError (msg : String)
  | otherError (msg : String)

def headersJson (hs : List (String × String)) : Json :=
  .obj (hs.map (fun h => (h.fst, Json.str h.snd)))

/-- `http_get` (`tools.py` lines 251-288), with the httpx call abstracted
as an `HttpOutcome`; every failure branch returns a structured error. -/
def http_get (outcome : HttpOutcome) (_url : String)
    (_headers : Option (List (String × String))) (_timeout : Nat) : Json :=
  match outcome with
  | .success status_code headers body url =>
      .obj [("status_code", .int status_code), ("headers", headersJson headers),
            ("body", .str body), ("url", .str url)]
  | .statusError code text =>
      .obj [("error", .str ("HTTP error " ++ toString code ++ ": " ++ text)),
            ("status_code", .int code)]
  | .requestError msg => .obj [("error", .str ("Request error: " ++ msg))]
  | .otherError msg => .obj [("error", .str ("Unexpected error: " ++ msg))]

/-- `http_post` (`tools.py` lines 291-332). -/
def http_post (outcome : HttpOutcome) (_url : String) (_json_data : Json)
    (_headers : Option (List (String × String))) (_timeout : Nat) : Json :=
  match outcome with
  | .success status_code headers body url =>
      .obj [("status_code", .int status_code), ("headers", headersJson headers),
            ("body", .str body), ("url", .str url)]
  | .statusError code text =>
      .obj [("error", .str ("HTTP error " ++ toString code ++ ": " ++ text)),
            ("status_code", .int code)]
  | .requestError msg => .obj [("error", .str ("Request error: " ++ msg))]
  | .otherError msg => .obj [("error", .str ("Unexpected error: " ++ msg))]

def userSuccessShape (j : Json) : Bool :=
  j.keys == ["id", "email", "full_name", "is_active", "is_superuser"]

def itemSuccessShape (j : Json) : Bool :=
  j.keys == ["id", "title", "description", "owner_id"]

def itemListSuccessShape (j : Json) : Bool :=
  j.keys == ["count", "items", "limit"]

def httpSuccessShape (j : Json) : Bool :=
  j.keys == ["status_code", "headers", "body", "url"]

/-- C6: every capability function returns a JSON object that is either the
documented success payload or a structured error payload with a string
"error" field; each function is total over all oracle outcomes (database
failure, HTTP failure), so no exception crosses the capability boundary. -/
theorem C6_capability_boundary (session : Session) (email item_id user_id : String)
    (limit : Nat) (outcome : HttpOutcome) (url : String)
    (headers : Option (List (String × String))) (timeout : Nat) (json_data : Json) :
    ((lookup_user_by_email session email).isObj = true ∧
      (structuredError (lookup_user_by_email session email) = true ∨
        userSuccessShape (lookup_user_by_email session email) = true)) ∧
    ((lookup_item_by_id session item_id).isObj = true ∧
      (structuredError (lookup_item_by_id session item_id) = true ∨
        itemSuccessShape (lookup_item_by_id session item_id) = true)) ∧
    ((lookup_user_items session user_id limit).isObj = true ∧
      (structuredError (lookup_user_items session user_id limit) = true ∨
        itemListSuccessShape (lookup_user_items session user_id limit) = true)) ∧
    ((http_get outcome url headers timeout).isObj = true ∧
      (structuredError (http_get outcome url headers timeout) = true ∨
        httpSuccessShape (http_get outcome url headers timeout) = true)) ∧
    ((http_post outcome url json_data headers timeout).isObj = true ∧
      (structuredError (http_post outcome url json_data headers timeout) = true ∨
        httpSuccessShape (http_post outcome url json_data headers timeout) = true)) := by
  refine ⟨?_, ?_, ?_, ?_, ?_⟩
  · rcases hdb : session.dbError with _ | e
    · rcases h : session.users.find? (fun u => u.email == email) with _ | user <;>
        simp [lookup_user_by_email, Session.run, hdb, h, structuredError,
          Json.lookupField, Json.isObj, userSuccessShape, Json.keys]
    · simp [lookup_user_by_email, Session.run, hdb, structuredError,
        Json.lookupField, Json.isObj]
  · rcases hdb : session.dbError with _ | e
    · rcases h : session.items.find? (fun it => it.id == item_id) with _ | item <;>
        simp [lookup_item_by_id, Session.run, hdb, h, structuredError,
          Json.lookupField, Json.isObj, itemSuccessShape, Json.keys]
    · simp [lookup_item_by_id, Session.run, hdb, structuredError,
        Json.lookupField, Json.isObj]
  · rcases hdb : session.dbError with _ | e <;>
      simp [lookup_user_items, Session.run, hdb, structuredError,
        Json.lookupField, Json.isObj, itemListSuccessShape, Json.keys]
  · cases outcome <;>
      simp [http_get, structuredError, Json.lookupField, Json.isObj,
        httpSuccessShape, Json.keys]
  · cases outcome <;>
      simp [http_post, structuredError, Json.lookupField, Json.isObj,
        httpSuccessShape, Json.keys]

/-! ### `HTTPPostInput` validation (`tools.py` lines 196-248)

`json_data` is an arbitrary Python runtime value; floats are kept
abstract up to finiteness, since `json.dumps(..., allow_nan=False)`
distinguishes only finite floats from NaN and the infinities.
-/

inductive PyValue where
  | pstr (s : String)
  | pint (n : Int)
  | pfloat (mantissa : Int)
  | pnan
  | pinf
  | pninf
  | pbool (b : Bool)
  | pnone
  | plist (xs : List PyValue)
  | pdict (fields : List (String × PyValue))
  | pset (xs : List PyValue)

mutual

def containsSet : PyValue → Bool
  | .pset _ => true
  | .plist xs => containsSetList xs
  | .pdict fields => containsSetFields fields
  | _ => false

def containsSetList : List PyValue → Bool
  | [] => false
  | x :: xs => containsSet x || containsSetList xs

def containsSetFields : List (String × PyValue) → Bool
  | [] => false
  | (_, v) :: fs => containsSet v || containsSetFields fs

end

mutual

def containsNanInf : PyValue → Bool
  | .pnan => true
  | .pinf => true
  | .pninf => true
  | .plist xs => containsNanInfList xs
  | .pdict fields => containsNanInfFields fields
  | .pset xs => containsNanInfList xs
  | _ => false

def containsNanInfList : List PyValue → Bool
  | [] => false
  | x :: xs => containsNanInf x || containsNanInfList xs

def containsNanInfFields : List (String × PyValue) → Bool
  | [] => false
  | (_, v) :: fs => containsNanInf v || containsNanInfFields fs

end

/-- Truthiness of `isinstance(json_data, set)` at the top level. -/
def isSet : PyValue → Bool
  | .pset _ => true
  | _ => false

/-- `json.dumps(v, allow_nan=False)` succeeds iff no set occurs in `v`
(`TypeError: Object of type set is not JSON serializable`) and no NaN or
Infinity occurs in `v` (`ValueError` under `allow_nan=False`); over the
modelled value universe these are the only failure modes of the strict
serializer. -/
def dumpsOk (v : PyValue) : Bool :=
  !containsSet v && !containsNanInf v

/-- `validate_json_data_before_coercion` (`tools.py` lines 211-232): the
`mode="before"` model validator rejects a top-level set explicitly, then
attempts a strict `json.dumps` and turns its exceptions into a
`ValueError`. -/
def validate_json_data_before_coercion (json_data : Option PyValue) :
    Except String Unit :=
  match json_data with
  | none => .ok ()
  | some v =>
      if isSet v then
        .error "json_data must be valid JSON (no NaN/Infinity, must be serializable)"
      else if dumpsOk v then .ok ()
      else
        .error "json_data must be valid JSON (no NaN/Infinity, must be serializable)"

/-- `validate_json_serializable` (`tools.py` lines 234-248): the field
validator repeats the strict `json.dumps` check after coercion and
returns the value unchanged when it passes. -/
def validate_json_serializable (v : Option PyValue) :
    Except String (Option PyValue) :=
  match v with
  | none => .ok none
  | some v =>
      if dumpsOk v then .ok (some v)
      else
        .error "json_data must be valid JSON (no NaN/Infinity, must be serializable)"

structure HTTPPostInput where
  url : String
  json_data : Option PyValue
  headers : Option (List (String × String))
  timeout : Int

/-- Pydantic construction of `HTTPPostInput` with `url` and `json_data`
supplied and the declared defaults (`headers=None`, `timeout=30`): the
before-validator runs first, then the field validator; any raise becomes
a `ValidationError`. -/
def mkHTTPPostInput (url : String) (json_data : Option PyValue) :
    Except String HTTPPostInput :=
  match validate_json_data_before_coercion json_data with
  | .error e => .error e
  | .ok () =>
      match validate_json_serializable json_data with
      | .error e => .error e
      | .ok v => .ok ⟨url, v, none, 30⟩

/-- C10: constructing an `HTTPPostInput` whose `json_data` is a set or
contains NaN or Infinity raises a validation error, while any `json_data`
accepted by strict JSON serialization passes validation unchanged. -/
theorem C10_httppostinput_validation (url : String) (v : PyValue) :
    ((isSet v = true ∨ containsNanInf v = true) →
      ∃ e, mkHTTPPostInput url (some v) = .error e) ∧
    (dumpsOk v = true →
      mkHTTPPostInput url (some v) = .ok ⟨url, some v, none, 30⟩) := by
  constructor
  · rintro (h | h)
    · refine ⟨"json_data must be valid JSON (no NaN/Infinity, must be serializable)", ?_⟩
      simp [mkHTTPPostInput, validate_json_data_before_coercion, h]
    · have hd : dumpsOk v = false := by
        simp [dumpsOk, h]
      refine ⟨"json_data must be valid JSON (no NaN/Infinity, must be serializable)", ?_⟩
      by_cases hs : isSet v = true <;>
        simp [mkHTTPPostInput, validate_json_data_before_coercion, hs, hd]
  · intro h
    have hs : isSet v = false := by
      rcases v <;> simp_all [isSet, dumpsOk, containsSet]
    simp [mkHTTPPostInput, validate_json_data_before_coercion,
      validate_json_serializable, hs, h]

theorem C10_httppostinput_validation_witness :
    (∃ e, mkHTTPPostInput "http://example.com" (some (PyValue.pset [])) =
      Except.error e) ∧
    mkHTTPPostInput "http://example.com" (some (PyValue.pstr "payload")) =
      Except.ok ⟨"http://example.com", some (PyValue.pstr "payload"), none, 30⟩ :=
  ⟨(C10_httppostinput_validation "http://example.com" (PyValue.pset [])).1
      (Or.inl rfl),
   (C10_httppostinput_validation "http://example.com" (PyValue.pstr "payload")).2 rfl⟩

/-! ### Conversation history (`graph.py` lines 404-441) -/

structure StateSnapshot where
  values : AgentState
  created_at : Nat
  metadata : List (String × String)
  config : String
deriving DecidableEq

structure HistoryEntry where
  values : AgentState
  created_at : Nat
  metadata : List (String × String)
  config : String
deriving DecidableEq

/-- Modelled from the spec: `graph.get_state_history(config)` is langgraph
library code backed by the PostgresSaver, absent from src.  The checkpoint
store "must guarantee ... that `list_history` returns checkpoints in
creation order for a given thread" (spec section 4.4), so a thread's
stored history is represented as the list of its snapshots in creation
order and the iterator yields exactly that list. -/
def get_state_history (thread : List StateSnapshot) : List StateSnapshot :=
  thread

/-- The dict appended per snapshot (`graph.py` lines 431-436). -/
def historyEntry (s : StateSnapshot) : HistoryEntry :=
  ⟨s.values, s.created_at, s.metadata, s.config⟩

/-- Python truthiness of `limit : int | None`: false for `None` and `0`. -/
def limitTruthy : Option Int → Bool
  | none => false
  | some v => v != 0

/-- The accumulation loop of `get_conversation_history` (`graph.py` lines
429-439): append one entry per snapshot and break when `limit` is truthy
and `len(history) >= limit`. -/
def historyLoop (limit : Option Int) :
    List StateSnapshot → List HistoryEntry → List HistoryEntry
  | [], history => history
  | state :: rest, history =>
      let history1 := history ++ [historyEntry state]
      if limitTruthy limit && decide ((history1.length : Int) ≥ limit.getD 0) then
        history1
      else historyLoop limit rest history1

/-- `get_conversation_history` (`graph.py` lines 404-441). -/
def get_conversation_history (thread : List StateSnapshot) (limit : Option Int) :
    List HistoryEntry :=
  historyLoop limit (get_state_history thread) []

theorem historyLoop_no_limit (limit : Option Int) (h : limitTruthy limit = false) :
    ∀ (snaps : List StateSnapshot) (acc : List HistoryEntry),
      historyLoop limit snaps acc = acc ++ snaps.map historyEntry := by
  intro snaps
  induction snaps with
  | nil => intro acc; simp [historyLoop]
  | cons s rest ih =>
      intro acc
      simp [historyLoop, h, ih]

theorem historyLoop_pos_limit (k : Int) (hk : 0 < k) :
    ∀ (snaps : List StateSnapshot) (acc : List HistoryEntry),
      (acc.length : Int) < k →
      historyLoop (some k) snaps acc =
        acc ++ (snaps.take (k - acc.length).toNat).map historyEntry := by
  intro snaps
  induction snaps with
  | nil => intro acc _; simp [historyLoop]
  | cons s rest ih =>
      intro acc hlt
      have hck : (k != 0) = true := by
        simp only [bne_iff_ne, ne_eq]
        omega
      rw [historyLoop]
      simp only [limitTruthy, Option.getD, hck, Bool.true_and,
        List.length_append, List.length_cons, List.length_nil]
      by_cases hstop : ((acc.length : Int) + 1 ≥ k)
      · have hone : (k - (acc.length : Int)).toNat = 1 := by omega
        have hdec : decide (((acc.length + (0 + 1) : Nat) : Int) ≥ k) = true := by
          simp only [decide_eq_true_eq]
          push_cast
          omega
        rw [if_pos]
        · rw [hone]
          simp [List.take]
        · simp only [hdec]
      · have hdec : decide (((acc.length + (0 + 1) : Nat) : Int) ≥ k) = false := by
          simp only [decide_eq_false_iff_not]
          push_cast
          omega
        rw [if_neg]
        · rw [ih (acc ++ [historyEntry s]) (by simp; omega)]
          have hsucc : (k - (acc.length : Int)).toNat =
              (k - ((acc ++ [historyEntry s]).length : Int)).toNat + 1 := by
            simp only [List.length_append, List.length_cons, List.length_nil]
            push_cast
            omega
          rw [hsucc, List.take_succ_cons]
          simp
        · simp only [hdec, Bool.and_false]
          exact Bool.false_ne_true

/-- C9: a limit of None or 0 disables truncation and returns the complete
history; a positive limit returns at most that many entries, keeping the
first snapshots yielded by the state-history iterator. -/
theorem C9_history_limit (thread : List StateSnapshot) :
    (get_conversation_history thread none =
      (get_state_history thread).map historyEntry) ∧
    (get_conversation_history thread (some 0) =
      (get_state_history thread).map historyEntry) ∧
    (∀ k : Int, 0 < k →
      get_conversation_history thread (some k) =
        ((get_state_history thread).take k.toNat).map historyEntry ∧
      (get_conversation_history thread (some k)).length ≤ k.toNat) := by
  refine ⟨?_, ?_, ?_⟩
  · rw [get_conversation_history, historyLoop_no_limit none rfl]
    simp
  · rw [get_conversation_history, historyLoop_no_limit (some 0) rfl]
    simp
  · intro k hk
    have h := historyLoop_pos_limit k hk (get_state_history thread) [] (by simp; omega)
    have heq : get_conversation_history thread (some k) =
        ((get_state_history thread).take k.toNat).map historyEntry := by
      rw [get_conversation_history, h]
      simp
    refine ⟨heq, ?_⟩
    rw [heq]
    simp only [List.length_map, List.length_take]
    omega

theorem C9_history_limit_witness :
    (0 : Int) < 1 ∧
    get_conversation_history
        [⟨⟨[], none, none⟩, 1, [], "c1"⟩, ⟨⟨[], none, none⟩, 2, [], "c2"⟩] (some 1) =
      (((get_state_history
        [⟨⟨[], none, none⟩, 1, [], "c1"⟩, ⟨⟨[], none, none⟩, 2, [], "c2"⟩]).take
          (Int.toNat 1)).map historyEntry) :=
  ⟨by decide,
   (C9_history_limit
      [⟨⟨[], none, none⟩, 1, [], "c1"⟩, ⟨⟨[], none, none⟩, 2, [], "c2"⟩]).2.2
      1 (by decide) |>.1⟩

/-- The snapshots of a thread are listed with non-decreasing creation
timestamps (what "creation order" means for the timestamp field). -/
def timestampsNondecreasing (snaps : List StateSnapshot) : Prop :=
  List.Chain' (fun a b => a.created_at ≤ b.created_at) snaps

/-- C2: `get_conversation_history(thread_id)` with no limit returns the
thread's snapshots in creation order, oldest first (timestamps
non-decreasing), each entry carrying its snapshot's creation timestamp
and metadata. -/
theorem C2_history_oldest_first (thread : List StateSnapshot)
    (h : timestampsNondecreasing thread) :
    get_conversation_history thread none =
      (get_state_history thread).map historyEntry ∧
    List.Chain' (fun a b => a.created_at ≤ b.created_at)
      (get_conversation_history thread none) ∧
    (get_conversation_history thread none).map
        (fun e => (e.created_at, e.metadata)) =
      thread.map (fun s => (s.created_at, s.metadata)) := by
  have heq : get_conversation_history thread none =
      (get_state_history thread).map historyEntry := by
    rw [get_conversation_history, historyLoop_no_limit none rfl]
    simp
  refine ⟨heq, ?_, ?_⟩
  · rw [heq]
    rw [List.chain'_map]
    exact h
  · rw [heq]
    simp [get_state_history, historyEntry]

theorem C2_history_oldest_first_witness :
    timestampsNondecreasing
      [⟨⟨[], none, none⟩, 1, [("step", "planner")], "c1"⟩,
       ⟨⟨[], none, none⟩, 2, [("step", "executor")], "c2"⟩] ∧
    (get_conversation_history
        [⟨⟨[], none, none⟩, 1, [("step", "planner")], "c1"⟩,
         ⟨⟨[], none, none⟩, 2, [("step", "executor")], "c2"⟩] none).map
        (fun e => (e.created_at, e.metadata)) =
      [(1, [("step", "planner")]), (2, [("step", "executor")])] :=
  ⟨by unfold timestampsNondecreasing; exact List.chain'_pair.mpr (by decide),
   (C2_history_oldest_first
      [⟨⟨[], none, none⟩, 1, [("step", "planner")], "c1"⟩,
       ⟨⟨[], none, none⟩, 2, [("step", "executor")], "c2"⟩]
      (by unfold timestampsNondecreasing;
          exact List.chain'_pair.mpr (by decide))).2.2⟩

/-! ### Node functions and state merging -/

/-- A partial state update returned by a node: the planner returns the
`plan` and `messages` keys (`graph.py` lines 96-99), the executor only
`messages` (lines 155-157); no node ever returns `user_id`.
`plan = none` models an absent key. -/
structure StateUpdate where
  messages : List BaseMessage
  plan : Option String

/-- Modelled from the spec: the `add_messages` reducer declared on
`AgentState.messages` is langgraph library code; per the spec it has
"append-only merge semantics — when a node returns new messages, they
are appended to, never replace, the existing sequence". -/
def add_messages (old new : List BaseMessage) : List BaseMessage :=
  old ++ new

/-- Modelled from the spec: merging a partial update into the state,
"append for `messages`, replace for scalar fields such as `plan`";
fields absent from the update are untouched. -/
def mergeState (s : AgentState) (u : StateUpdate) : AgentState :=
  ⟨add_messages s.messages u.messages,
   match u.plan with
   | some p => some p
   | none => s.plan,
   s.user_id⟩

/-- A chat-model oracle: maps the prompt message sequence to one
response message. -/
def ChatModel := List BaseMessage → BaseMessage

/-- An executor-model oracle: receives the bound tool list and the
prompt messages, returns one response that may carry tool calls. -/
def ExecModel := List Tool → List BaseMessage → BaseMessage

/-- A capability-runner oracle: the string outcome of one tool call. -/
def ToolRunner := ToolCall → String

/-- System prompt of the planner (`graph.py` lines 67-80; prompt text
elided, it carries no control flow). -/
def plannerSystemPrompt : String :=
  "You are an AI planning assistant. Analyze the request and create a concise execution plan."

/-- `planner_node` (`graph.py` lines 51-99): invokes the model on the
system prompt plus the conversation, stores the response text as the
plan and appends the response message. -/
def planner_node (model : ChatModel) (state : AgentState) : StateUpdate :=
  let messages := state.messages
  let response := model (.system plannerSystemPrompt :: messages)
  let plan := response.content
  ⟨[response], some plan⟩

/-- The executor system prompt (`graph.py` lines 125-133), built from
`state.get("plan", "No specific plan - respond naturally")`. -/
def executorSystemPrompt (plan : Option String) : String :=
  "You are a helpful AI assistant. Current execution plan: " ++
    plan.getD "No specific plan - respond naturally"

/-- `executor_node` (`graph.py` lines 102-157): binds `get_all_tools
session` to the model, invokes it on the system prompt plus the
conversation and returns only the response message. -/
def executor_node (model : ExecModel) (session : Option Session)
    (state : AgentState) : StateUpdate :=
  let messages := state.messages
  let tools := get_all_tools session
  let response := model tools (.system (executorSystemPrompt state.plan) :: messages)
  ⟨[response], none⟩

/-- Modelled from the spec: langgraph's prebuilt `ToolNode`
(`graph.py` lines 231-235) "invokes each requested capability
(independently; one capability's failure does not block others ...) and
appends all ToolCallResults as a new message"; it reads the tool calls
of the last message and pairs each outcome with its call id. -/
def tool_executor_node (runner : ToolRunner) (state : AgentState) : StateUpdate :=
  let calls := match state.messages.getLast? with
               | some m => m.toolCalls
               | none => []
  ⟨calls.map (fun tc => .tool (runner tc) tc.id), none⟩

/-! ### The execution engine (spec-modelled loop over the src graph) -/

inductive NodeName where
  | planner
  | executor
  | tool_executor
deriving DecidableEq

structure Checkpoint where
  node : NodeName
  state : AgentState
deriving DecidableEq

inductive RunStatus where
  | success (final : AgentState)
  | planExhausted
  | routingFailure
deriving DecidableEq

structure RunOutcome where
  status : RunStatus
  checkpoints : List Checkpoint
deriving DecidableEq

/-- Modelled from the spec: the executor / tool-executor cycle of the
execution engine (spec section 4.3) following the edges declared in
`create_agent_graph` (`graph.py` lines 248-262); the engine "must
impose a maximum hop count (configurable, default suggested: 25) and
terminate with a 'plan exhausted' result if exceeded".  `visitsLeft`
counts the executor visits still allowed; a checkpoint is persisted
after every node per spec section 4.4.  `routingFailure` models the
fatal error for a state the router cannot observe, which no reachable
state produces. -/
def executorLoop (em : ExecModel) (runner : ToolRunner)
    (session : Option Session) : AgentState → Nat → RunOutcome
  | _, 0 => ⟨.planExhausted, []⟩
  | state, Nat.succ n =>
      let s1 := mergeState state (executor_node em session state)
      match route_after_executor s1 with
      | some r =>
          if r = "tool_executor" then
            let s2 := mergeState s1 (tool_executor_node runner s1)
            let rest := executorLoop em runner session s2 n
            ⟨rest.status, ⟨.executor, s1⟩ :: ⟨.tool_executor, s2⟩ :: rest.checkpoints⟩
          else ⟨.success s1, [⟨.executor, s1⟩]⟩
      | none => ⟨.routingFailure, [⟨.executor, s1⟩]⟩

/-- The spec's suggested default for the configurable hop bound. -/
def DEFAULT_MAX_HOPS : Nat := 25

/-- Modelled from the spec: one run of the compiled graph — START to
"planner" (`add_edge(START, "planner")`), the `should_continue`
conditional edge to "executor", then the executor / tool-executor
cycle. -/
def runAgent (pm : ChatModel) (em : ExecModel) (runner : ToolRunner)
    (session : Option Session) (maxHops : Nat) (initialState : AgentState) :
    RunOutcome :=
  let s1 := mergeState initialState (planner_node pm initialState)
  if should_continue s1 = "executor" then
    let rest := executorLoop em runner session s1 maxHops
    ⟨rest.status, ⟨.planner, s1⟩ :: rest.checkpoints⟩
  else ⟨.success s1, [⟨.planner, s1⟩]⟩

/-- `invoke_agent` (`graph.py` lines 288-346): builds the initial state
`messages=[HumanMessage(message)], plan=None, user_id=user_id` and runs
the graph; `maxHops` is the engine's configurable bound. -/
def invoke_agent (pm : ChatModel) (em : ExecModel) (runner : ToolRunner)
    (session : Option Session) (maxHops : Nat)
    (message : String) (user_id : String) : RunOutcome :=
  runAgent pm em runner session maxHops ⟨[.human message], none, some user_id⟩

def executorVisits (o : RunOutcome) : Nat :=
  o.checkpoints.countP (fun c => c.node == NodeName.executor)

def finalStateOf (o : RunOutcome) : Option AgentState :=
  match o.status with
  | .success s => some s
  | _ => none

theorem executorLoop_visits_le (em : ExecModel) (runner : ToolRunner)
    (session : Option Session) :
    ∀ (n : Nat) (state : AgentState),
      (executorLoop em runner session state n).checkpoints.countP
        (fun c => c.node == NodeName.executor) ≤ n := by
  intro n
  induction n with
  | zero => intro state; simp [executorLoop]
  | succ n ih =>
      intro state
      rw [executorLoop]
      rcases h : route_after_executor
          (mergeState state (executor_node em session state)) with _ | r
      · simp [List.countP_cons]
      · by_cases hr : r = "tool_executor"
        · simp only [hr, if_pos rfl, List.countP_cons]
          have := ih (mergeState (mergeState state (executor_node em session state))
            (tool_executor_node runner
              (mergeState state (executor_node em session state))))
          simp only [List.countP_cons] at this ⊢
          simp
          omega
        · simp [hr, List.countP_cons]

/-- Scenario C stub: a model that always requests a tool call, run with
max hops 3. -/
def scenarioC : RunOutcome :=
  invoke_agent (fun _ => .ai "plan" [])
    (fun _ _ => .ai "calling" [⟨"http_get", "args", "c1"⟩])
    (fun _ => "result") none 3 "hello" "user-1"

/-- C1: the engine bounds the executor / tool-executor cycle by a
configurable maximum hop count with default 25: every run visits the
executor at most `maxHops` times, and with max hops 3 and a model stub
that always requests a tool call the run terminates with a
plan-exhausted failure after exactly 3 executor visits. -/
theorem C1_bounded_hops :
    DEFAULT_MAX_HOPS = 25 ∧
    (∀ (pm : ChatModel) (em : ExecModel) (runner : ToolRunner)
        (session : Option Session) (maxHops : Nat) (s0 : AgentState),
      executorVisits (runAgent pm em runner session maxHops s0) ≤ maxHops) ∧
    scenarioC.status = RunStatus.planExhausted ∧
    executorVisits scenarioC = 3 := by
  refine ⟨rfl, ?_, rfl, rfl⟩
  intro pm em runner session maxHops s0
  unfold executorVisits runAgent
  simp only [should_continue, if_pos rfl, List.countP_cons]
  have := executorLoop_visits_le em runner session maxHops
    (mergeState s0 (planner_node pm s0))
  simp
  omega

/-- Scenario A stub: the model returns a plain text response with no
tool calls at both the planner and the executor, for the run started
with the single user message "hello". -/
def scenarioA : RunOutcome :=
  invoke_agent (fun _ => .ai "Plan: greet the user. No tools needed." [])
    (fun _ _ => .ai "Hello! How can I help you today?" [])
    (fun _ => "unused") none DEFAULT_MAX_HOPS "hello" "user-1"

/-- C3 counterexample: in Scenario A the final state carries 3 messages —
the user message, the planner response that `planner_node` appends via
its `messages` key, and the executor response — not 2 as claimed. -/
theorem C3_counterexample :
    (finalStateOf scenarioA).map (fun s => s.messages.length) = some 3 ∧
    (finalStateOf scenarioA).map (fun s => s.messages.length) ≠ some 2 :=
  ⟨rfl, by decide⟩

/-- C3 amended: Scenario A ends with exactly 3 messages (user message,
planner response, assistant response), the plan set to the planner
response text, and one checkpoint per node visited, planner then
executor. -/
theorem C3_scenarioA :
    (finalStateOf scenarioA).map (fun s => s.messages) =
      some [.human "hello",
            .ai "Plan: greet the user. No tools needed." [],
            .ai "Hello! How can I help you today?" []] ∧
    (finalStateOf scenarioA).map (fun s => s.plan) =
      some (some "Plan: greet the user. No tools needed.") ∧
    scenarioA.checkpoints.map Checkpoint.node = [.planner, .executor] :=
  ⟨rfl, rfl, rfl⟩

/-- One-step unfolding of `runAgent`: `should_continue` always says
"executor", so the planner checkpoint is followed by the executor
loop. -/
theorem runAgent_eq (pm : ChatModel) (em : ExecModel) (runner : ToolRunner)
    (session : Option Session) (maxHops : Nat) (s0 : AgentState) :
    runAgent pm em runner session maxHops s0 =
      ⟨(executorLoop em runner session (mergeState s0 (planner_node pm s0)) maxHops).status,
       ⟨.planner, mergeState s0 (planner_node pm s0)⟩ ::
         (executorLoop em runner session (mergeState s0 (planner_node pm s0))
            maxHops).checkpoints⟩ :=
  rfl

theorem executorLoop_lengths_chain (em : ExecModel) (runner : ToolRunner)
    (session : Option Session) :
    ∀ (n : Nat) (state : AgentState),
      List.Chain' (fun a b => a ≤ b)
        (state.messages.length ::
          (executorLoop em runner session state n).checkpoints.map
            (fun c => c.state.messages.length)) := by
  intro n
  induction n with
  | zero => intro state; simp [executorLoop]
  | succ n ih =>
      intro state
      rcases h : route_after_executor
          (mergeState state (executor_node em session state)) with _ | r
      · simp only [executorLoop, h, List.map_cons, List.map_nil]
        refine List.chain'_pair.mpr ?_
        simp [mergeState, add_messages]
      · by_cases hr : r = "tool_executor"
        · simp only [executorLoop, h]
          rw [if_pos hr]
          simp only [List.map_cons]
          rw [List.chain'_cons, List.chain'_cons]
          refine ⟨?_, ?_, ih _⟩
          · simp [mergeState, add_messages]
          · simp [mergeState, add_messages]
        · simp only [executorLoop, h]
          rw [if_neg hr]
          simp only [List.map_cons, List.map_nil]
          refine List.chain'_pair.mpr ?_
          simp [mergeState, add_messages]

/-- C7: state merging is append-only — the merged message sequence is the
old sequence with the update's messages appended, so no existing message
is replaced or removed — and along every run the message-sequence length
is monotonically non-decreasing from the initial state through every
checkpoint. -/
theorem C7_append_only :
    (∀ (s : AgentState) (u : StateUpdate),
      (mergeState s u).messages = s.messages ++ u.messages ∧
      s.messages.length ≤ (mergeState s u).messages.length) ∧
    (∀ (pm : ChatModel) (em : ExecModel) (runner : ToolRunner)
        (session : Option Session) (maxHops : Nat) (s0 : AgentState),
      List.Chain' (fun a b => a ≤ b)
        (s0.messages.length ::
          ((runAgent pm em runner session maxHops s0).checkpoints.map
            (fun c => c.state.messages.length)))) := by
  constructor
  · intro s u
    refine ⟨rfl, ?_⟩
    simp [mergeState, add_messages]
  · intro pm em runner session maxHops s0
    rw [runAgent_eq]
    simp only [List.map_cons]
    rw [List.chain'_cons]
    refine ⟨?_, executorLoop_lengths_chain em runner session maxHops _⟩
    simp [mergeState, add_messages]

theorem executorLoop_user_id (em : ExecModel) (runner : ToolRunner)
    (session : Option Session) :
    ∀ (n : Nat) (state : AgentState),
      (∀ c ∈ (executorLoop em runner session state n).checkpoints,
        c.state.user_id = state.user_id) ∧
      (∀ s, (executorLoop em runner session state n).status = .success s →
        s.user_id = state.user_id) := by
  intro n
  induction n with
  | zero => intro state; simp [executorLoop]
  | succ n ih =>
      intro state
      rcases h : route_after_executor
          (mergeState state (executor_node em session state)) with _ | r
      · simp only [executorLoop, h]
        constructor
        · intro c hc
          simp only [List.mem_singleton] at hc
          subst hc
          rfl
        · intro s hs
          exact absurd hs (by simp)
      · by_cases hr : r = "tool_executor"
        · simp only [executorLoop, h]
          rw [if_pos hr]
          constructor
          · intro c hc
            simp only [List.mem_cons] at hc
            rcases hc with hc | hc | hc
            · subst hc; rfl
            · subst hc; rfl
            · exact (ih (mergeState (mergeState state (executor_node em session state))
                (tool_executor_node runner
                  (mergeState state (executor_node em session state))))).1 c hc
          · intro s hs
            exact (ih (mergeState (mergeState state (executor_node em session state))
              (tool_executor_node runner
                (mergeState state (executor_node em session state))))).2 s hs
        · simp only [executorLoop, h]
          rw [if_neg hr]
          constructor
          · intro c hc
            simp only [List.mem_singleton] at hc
            subst hc
            rfl
          · intro s hs
            simp only [RunStatus.success.injEq] at hs
            subst hs
            rfl

/-- C8: `user_id` is set once at run start and never modified: neither
the planner update nor the executor update (nor the tool node) touches
it, so every checkpointed state and the final state of an
`invoke_agent` run carry exactly the `user_id` supplied to it. -/
theorem C8_user_id_immutable (pm : ChatModel) (em : ExecModel)
    (runner : ToolRunner) (session : Option Session) (maxHops : Nat)
    (message user_id : String) :
    (∀ c ∈ (invoke_agent pm em runner session maxHops message user_id).checkpoints,
      c.state.user_id = some user_id) ∧
    (∀ s, finalStateOf (invoke_agent pm em runner session maxHops message user_id) =
        some s → s.user_id = some user_id) := by
  unfold invoke_agent
  rw [runAgent_eq]
  constructor
  · intro c hc
    simp only [List.mem_cons] at hc
    rcases hc with hc | hc
    · subst hc; rfl
    · exact (executorLoop_user_id em runner session maxHops _).1 c hc
  · intro s hs
    unfold finalStateOf at hs
    rcases hstat : (executorLoop em runner session
        (mergeState ⟨[.human message], none, some user_id⟩
          (planner_node pm ⟨[.human message], none, some user_id⟩)) maxHops).status
        with final | _ | _
    · rw [hstat] at hs
      simp only [Option.some.injEq] at hs
      subst hs
      exact (executorLoop_user_id em runner session maxHops _).2 final hstat
    · rw [hstat] at hs
      exact absurd hs (by simp)
    · rw [hstat] at hs
      exact absurd hs (by simp)

theorem C8_user_id_immutable_witness :
    Checkpoint.mk NodeName.planner
        ⟨[.human "hello", .ai "Plan: greet the user. No tools needed." []],
         some "Plan: greet the user. No tools needed.", some "user-1"⟩ ∈
      scenarioA.checkpoints ∧
    (Checkpoint.mk NodeName.planner
        ⟨[.human "hello", .ai "Plan: greet the user. No tools needed." []],
         some "Plan: greet the user. No tools needed.", some "user-1"⟩).state.user_id =
      some "user-1" :=
  ⟨by decide,
   (C8_user_id_immutable (fun _ => .ai "Plan: greet the user. No tools needed." [])
      (fun _ _ => .ai "Hello! How can I help you today?" [])
      (fun _ => "unused") none DEFAULT_MAX_HOPS "hello" "user-1").1
      (Checkpoint.mk NodeName.planner
        ⟨[.human "hello", .ai "Plan: greet the user. No tools needed." []],
         some "Plan: greet the user. No tools needed.", some "user-1"⟩)
      (by decide)⟩

end FastapiAgent
